import Mathlib

/-!
Verification of the SQL analysis-and-rewriting engine in superset/sql_parse.py.

The development shallow-embeds the data model and operations of the module:
sqlparse token trees become the inductive `SToken`, sqlglot scope output
becomes `ScopeM`/`GStatement`, and sqloxide trees become `OxVal`.  External
parser invocations (sqlparse.parse, sqlglot.parse, sqlglot.parse_one,
sqloxide.parse_sql, the RLS predicate lookup) are modelled as explicit inputs
of the embedded functions; everything the module itself computes from those
parser outputs is translated directly from the source.
-/

/- ===================== sqlparse token model ===================== -/

/-- Token type tags modelling the sqlparse token-type tree nodes used by
sql_parse.py.  In sqlparse, DML, DDL and CTE are sub-kinds of Keyword
(Keyword.DML and so on) and Newline is a sub-kind of Whitespace; the
containment predicates below reflect that. -/
inductive TType where
  | Keyword
  | DML
  | DDL
  | CTEKw
  | Name
  | Punctuation
  | IntegerLit
  | StringLit
  | Whitespace
  | Newline
  | CommentSingle
  | Operator
  | Wildcard
  | Other
deriving DecidableEq, Repr

/-- Group kinds: the sqlparse TokenList subclasses that sql_parse.py inspects. -/
inductive GKind where
  | Statement
  | Identifier
  | IdentifierList
  | Parenthesis
  | Comparison
  | Where
  | Function
  | CommentG
  | Operation
deriving DecidableEq, Repr

/-- A sqlparse token: a leaf carrying a token type and its text, or a grouped
token list. -/
inductive SToken where
  | tok (ttype : TType) (value : String)
  | group (kind : GKind) (tokens : List SToken)

/-- Model of `ttype in T.Whitespace` (Newline is below Whitespace). -/
def TType.inWhitespaceT : TType → Bool
  | .Whitespace => true
  | .Newline => true
  | _ => false

/-- Model of `ttype in T.Keyword` (DML, DDL and CTE are below Keyword). -/
def TType.inKeywordT : TType → Bool
  | .Keyword => true
  | .DML => true
  | .DDL => true
  | .CTEKw => true
  | _ => false

/-- Model of `ttype in T.Comment`. -/
def TType.inCommentT : TType → Bool
  | .CommentSingle => true
  | _ => false

mutual
/-- Model of Token.value (equal to str(token)): the leaf text, or the
concatenated text of a group's children. -/
def SToken.value : SToken → String
  | .tok _ v => v
  | .group _ ts => SToken.valueList ts

/-- Concatenated text of a token list. -/
def SToken.valueList : List SToken → String
  | [] => ""
  | t :: ts => SToken.value t ++ SToken.valueList ts
end

/-- ASCII upper-casing of one character (Python str.upper on the ASCII
keywords this module compares). -/
def asciiUpperChar (c : Char) : Char :=
  if 'a' ≤ c ∧ c ≤ 'z' then Char.ofNat (c.toNat - 32) else c

/-- ASCII lower-casing of one character. -/
def asciiLowerChar (c : Char) : Char :=
  if 'A' ≤ c ∧ c ≤ 'Z' then Char.ofNat (c.toNat + 32) else c

/-- Model of str.upper() (structural, so that proofs can evaluate it). -/
def strUpper (s : String) : String :=
  String.mk (s.data.map asciiUpperChar)

/-- Model of str.lower(). -/
def strLower (s : String) : String :=
  String.mk (s.data.map asciiLowerChar)

/-- Model of Token.ttype; grouped token lists have ttype None. -/
def SToken.ttype : SToken → Option TType
  | .tok t _ => some t
  | .group _ _ => none

/-- Model of Token.is_whitespace (ttype in T.Whitespace; groups are not). -/
def SToken.isWs : SToken → Bool
  | .tok t _ => t.inWhitespaceT
  | .group _ _ => false

/-- Tokens skipped by skip_cm: comment-typed leaves and Comment groups. -/
def SToken.isCommentTok : SToken → Bool
  | .tok t _ => t.inCommentT
  | .group .CommentG _ => true
  | _ => false

/-- Model of Token.normalized: keywords are upper-cased, groups use their text. -/
def SToken.normalized (t : SToken) : String :=
  match t with
  | .tok tt v => if tt.inKeywordT then strUpper v else v
  | .group _ _ => t.value

/-- Model of imt(token, m=(ttype, values)): the ttype must match exactly (the
comparison in sqlparse is `self.ttype is ttype`) and the normalized text must
be among the given values. -/
def SToken.matchKw (t : SToken) (tt : TType) (vals : List String) : Bool :=
  match t with
  | .tok tt' _ => tt' = tt && vals.contains t.normalized
  | .group _ _ => false

/-- Model of isinstance(token, (IdentifierList, Identifier)). -/
def SToken.isIdentifierG : SToken → Bool
  | .group .Identifier _ => true
  | .group .IdentifierList _ => true
  | _ => false

/-- Model of isinstance(token, Identifier) alone, as tested by the
table-candidate branches of insert_rls and has_table_query. -/
def SToken.isIdentG : SToken → Bool
  | .group .Identifier _ => true
  | _ => false

/-- Model of isinstance(token, Where). -/
def SToken.isWhereG : SToken → Bool
  | .group .Where _ => true
  | _ => false

/-- First token (with index, counting from i) satisfying a predicate. -/
def findFirstIdx (p : SToken → Bool) : List SToken → Nat → Option (Nat × SToken)
  | [], _ => none
  | t :: ts, i => if p t then some (i, t) else findFirstIdx p ts (i + 1)

/-- First non-whitespace token of a list, with its index counting from i. -/
def findNonWs : List SToken → Nat → Option (Nat × SToken)
  | [], _ => none
  | t :: ts, i => if t.isWs then findNonWs ts (i + 1) else some (i, t)

/-- Model of TokenList.token_next(idx=i) with the default skips (whitespace
only): the next non-whitespace token strictly after index i, with its index. -/
def tokenNextFrom (ts : List SToken) (i : Nat) : Option (Nat × SToken) :=
  findNonWs (ts.drop (i + 1)) (i + 1)

/-- Model of TokenList.token_first(skip_cm=True). -/
def tokenFirstSkipCm : List SToken → Option (Nat × SToken) :=
  fun ts => findFirstIdx (fun t => !t.isWs && !t.isCommentTok) ts 0

/- ===================== Table model ===================== -/

/-- Hex digit used by percent-encoding (uppercase, as urllib.parse.quote). -/
def hexDigit (n : Nat) : Char :=
  if n < 10 then Char.ofNat (48 + n) else Char.ofNat (55 + n)

/-- Bytes urllib.parse.quote(s, safe="") leaves unescaped: ASCII letters,
digits, underscore, dot, hyphen and tilde. -/
def quoteSafeByte (b : Nat) : Bool :=
  (65 ≤ b && b ≤ 90) || (97 ≤ b && b ≤ 122) || (48 ≤ b && b ≤ 57) ||
    b == 95 || b == 46 || b == 45 || b == 126

/-- UTF-8 bytes of one code point (urllib quotes the UTF-8 encoding). -/
def utf8Bytes (c : Nat) : List Nat :=
  if c < 128 then [c]
  else if c < 2048 then [192 + c / 64, 128 + c % 64]
  else if c < 65536 then [224 + c / 4096, 128 + c / 64 % 64, 128 + c % 64]
  else [240 + c / 262144, 128 + c / 4096 % 64, 128 + c / 64 % 64, 128 + c % 64]

/-- Percent-encoding of a single byte under quote(s, safe=""). -/
def quoteByteChars (b : Nat) : List Char :=
  if quoteSafeByte b then [Char.ofNat b]
  else ['%', hexDigit (b / 16), hexDigit (b % 16)]

/-- Model of urllib.parse.quote(s, safe=""). -/
def pyQuote (s : String) : String :=
  String.mk ((s.data.map (fun c => (utf8Bytes c.toNat).map quoteByteChars)).flatten.flatten)

/-- Model of str.replace(".", "%2E") applied after quoting. -/
def escapeDots (s : String) : String :=
  String.mk ((s.data.map (fun c => if c = '.' then ['%', '2', 'E'] else [c])).flatten)

/-- Canonical encoding of one Table part: quote(part, safe="") with dots
escaped, as in Table.__str__. -/
def encodePart (s : String) : String :=
  escapeDots (pyQuote s)

/-- Model of the frozen dataclass Table([[catalog.]schema.]table). -/
structure Table where
  table : String
  schema : Option String := none
  catalog : Option String := none
deriving DecidableEq, Repr

/-- Model of Table.__str__: the truthy (non-None, non-empty) parts of
[catalog, schema, table], each encoded, joined with a dot. -/
def tableStr (t : Table) : String :=
  String.intercalate "."
    ((([t.catalog, t.schema, some t.table].filterMap id).filter (fun p => p != "")).map encodePart)

/-- Universe of right operands considered for Table.__eq__, together with the
Python str() view of each: plain strings and Tables. -/
inductive PyObj where
  | pstr (s : String)
  | ptable (t : Table)
deriving DecidableEq, Repr

/-- Model of Python str() on the operand universe. -/
def pyStr : PyObj → String
  | .pstr s => s
  | .ptable t => tableStr t

/-- Model of Table.__eq__(self, o): str(self) == str(o), for any operand. -/
def tableEqObj (t : Table) (o : PyObj) : Bool :=
  tableStr t == pyStr o

/-- Model of the dataclass-generated Table.__hash__: since the class body
defines __eq__ but no __hash__, dataclass(eq=True, frozen=True) installs the
field-based hash of the tuple (table, schema, catalog).  The hash is a pure
function of this key, and distinct keys hash differently up to the (ignored)
possibility of hash collisions. -/
def tableHashKey (t : Table) : String × Option String × Option String :=
  (t.table, t.schema, t.catalog)

/- ===================== limit extraction (ParsedQuery.__init__) ===================== -/

/-- Decimal value of a digit run. -/
def digitsVal (ds : List Char) : Nat :=
  ds.foldl (fun acc c => acc * 10 + (c.toNat - 48)) 0

/-- Model of Python int() on the text of a sqlparse Number.Integer token,
whose lexer pattern matches an optional leading minus sign followed by
digits. -/
def pyInt (s : String) : Int :=
  match s.data with
  | '-' :: ds => -((digitsVal ds : Nat) : Int)
  | ds => ((digitsVal ds : Nat) : Int)

/-- Model of _extract_limit_from_query: find the first LIMIT keyword, take the
next non-whitespace token (descending into an IdentifierList past its comma
for the `LIMIT offset, limit` form), and return its integer value if it is an
integer literal. -/
def extractLimitFromQuery (st : List SToken) : Option Int :=
  match findFirstIdx (fun t => t.matchKw TType.Keyword ["LIMIT"]) st 0 with
  | none => none
  | some (i, _) =>
    match tokenNextFrom st i with
    | none => none
    | some (_, found) =>
      let afterComma : Option SToken :=
        match found with
        | SToken.group GKind.IdentifierList cs =>
          match findFirstIdx (fun u => u.matchKw TType.Punctuation [","]) cs 0 with
          | none => none
          | some (j, _) => (tokenNextFrom cs j).map Prod.snd
        | t => some t
      match afterComma with
      | some (SToken.tok TType.IntegerLit v) => some (pyInt v)
      | _ => none

/-- Model of the limit loop in ParsedQuery.__init__: the cached limit is
reassigned from every statement in order, so the final value is the limit
extracted from the last statement (None when there is no statement). -/
def pqLimit (parsed : List (List SToken)) : Option Int :=
  parsed.foldl (fun _ st => extractLimitFromQuery st) none

/- ===================== set_or_update_query_limit ===================== -/

/-- Predicate of the keyword search loop in set_or_update_query_limit:
`item.ttype in Keyword and item.value.lower() == "limit"`. -/
def isLimitKwTok (t : SToken) : Bool :=
  match t.ttype with
  | some tt => tt.inKeywordT && strLower t.value == "limit"
  | none => false

/-- Text of the first element yielded by TokenList.get_identifiers(): the
first child that is neither whitespace nor a comma. -/
def firstIdentifierText (cs : List SToken) : String :=
  match cs.find? (fun t => !t.isWs && !(t.matchKw TType.Punctuation [","])) with
  | some t => t.value
  | none => ""

/-- Model of ParsedQuery.set_or_update_query_limit.  strippedSql models
self.stripped(), parsed models self._parsed.  The result none models a Python
exception (AttributeError when no value token follows a LIMIT keyword of the
first statement, IndexError when there is no statement), which the happy paths
never reach. -/
def setOrUpdateQueryLimit (strippedSql : String) (parsed : List (List SToken))
    (newLimit : Int) (force : Bool) : Option String :=
  let appended := strippedSql ++ "\nLIMIT " ++ toString newLimit
  match pqLimit parsed with
  | none => some appended
  | some v =>
    if v = 0 then some appended
    else
      match parsed with
      | [] => none
      | st :: _ =>
        match findFirstIdx isLimitKwTok st 0 with
        | none => none
        | some (i, _) =>
          match tokenNextFrom st i with
          | none => none
          | some (j, limTok) =>
            let newToks : List SToken :=
              match limTok with
              | SToken.tok TType.IntegerLit w =>
                if force || newLimit < pyInt w then
                  st.set j (SToken.tok TType.IntegerLit (toString newLimit))
                else st
              | SToken.group _ cs =>
                st.set j (SToken.tok TType.Other
                  (firstIdentifierText cs ++ ", " ++ toString newLimit))
              | _ => st
            some (SToken.valueList newToks)

/- ===================== get_type and is_select ===================== -/

/-- Model of sqlparse Statement.get_type(): the declared statement type, read
from the first meaningful token; a WITH head looks ahead past the CTE
definitions for the driving DML keyword. -/
def getType (st : List SToken) : String :=
  match tokenFirstSkipCm st with
  | none => "UNKNOWN"
  | some (_, SToken.tok TType.DML v) => strUpper v
  | some (_, SToken.tok TType.DDL v) => strUpper v
  | some (i, SToken.tok TType.CTEKw _) =>
    (match tokenNextFrom st i with
     | none => "UNKNOWN"
     | some (j, t1) =>
       let after : Option SToken :=
         if t1.isIdentifierG then (tokenNextFrom st j).map Prod.snd else some t1
       match after with
       | some u =>
         match u.ttype with
         | some TType.DML => u.normalized
         | _ => "UNKNOWN"
       | none => "UNKNOWN")
  | some _ => "UNKNOWN"

/-- The tokens of the first parenthesis group inside an identifier group, as
scanned by get_inner_cte_expression. -/
def findParenTokens : List SToken → Option (List SToken)
  | [] => none
  | SToken.group GKind.Parenthesis cs :: _ => some cs
  | _ :: rest => findParenTokens rest

/-- Model of ParsedQuery.get_inner_cte_expression. -/
def getInnerCte : List SToken → Option (List SToken)
  | [] => none
  | t :: ts =>
    match t with
    | SToken.group GKind.Identifier cs =>
      (match findParenTokens cs with
       | some inner => some inner
       | none => getInnerCte ts)
    | SToken.group GKind.IdentifierList cs =>
      (match findParenTokens cs with
       | some inner => some inner
       | none => getInnerCte ts)
    | _ => getInnerCte ts

/-- A token is a DDL leaf. -/
def isDdlTok (t : SToken) : Bool := t.ttype == some TType.DDL

/-- A token is a DML leaf whose normalized value is not SELECT. -/
def isNonSelectDml (t : SToken) : Bool :=
  t.ttype == some TType.DML && t.normalized != "SELECT"

/-- A token is a DML leaf normalizing to SELECT. -/
def isSelectDml (t : SToken) : Bool :=
  t.ttype == some TType.DML && t.normalized == "SELECT"

/-- Model of the per-statement body of ParsedQuery.is_select.  oxideCte models
the sqloxide CTE-purity check _check_cte_is_select: none when sqloxide is
unavailable or raised ValueError, some b for its boolean verdict. -/
def isSelectStmt (oxideCte : Option Bool) (st : List SToken) : Bool :=
  let cteHead :=
    match st with
    | SToken.tok TType.CTEKw _ :: _ => true
    | _ => false
  let cteFail :=
    cteHead &&
      ((oxideCte == some false) ||
        (let inner := (getInnerCte st).getD []
         inner.any isDdlTok || inner.any isNonSelectDml))
  if cteFail then false
  else if getType st == "SELECT" then true
  else if getType st != "UNKNOWN" then false
  else if st.any isDdlTok || st.any isNonSelectDml then false
  else if (match st with
           | t :: _ => t.ttype == some TType.Keyword
           | [] => false) then false
  else st.any isSelectDml

/-- Model of ParsedQuery.is_select over the parsed statement list (the Python
loop returns False at the first offending statement). -/
def isSelectModel (oxideCte : Option Bool) (stmts : List (List SToken)) : Bool :=
  stmts.all (isSelectStmt oxideCte)

/- ===================== sanitize_clause ===================== -/

/-- Error kinds raised by sanitize_clause. -/
inductive ClauseErr where
  | multipleStatements
  | closingUnopenedComment
  | unclosedComment
  | closingUnclosedParen
  | unclosedParen
deriving DecidableEq, Repr

/-- Model of the token scan inside sanitize_clause: multiline-comment marker
checks, then parenthesis-depth tracking with an immediate error when the depth
would go negative; returns the final previous token and depth. -/
def sanitizeScan (prev : Option SToken) (openParens : Int) :
    List SToken → Except ClauseErr (Option SToken × Int)
  | [] => .ok (prev, openParens)
  | t :: ts =>
    let prevIs := fun (s : String) =>
      match prev with
      | some p => p.value == s
      | none => false
    if t.value == "/" && prevIs "*" then .error .closingUnopenedComment
    else if t.value == "*" && prevIs "/" then .error .unclosedComment
    else
      let op :=
        if t.value == "(" then openParens + 1
        else if t.value == ")" then openParens - 1
        else openParens
      if (t.value == "(" || t.value == ")") && op < 0 then .error .closingUnclosedParen
      else sanitizeScan (some t) op ts

/-- The trailing-comment test after the scan: previous_token exists, its
ttype is in Comment, and its text does not end in a newline. -/
def needsNewlineAfter : Option SToken → Bool
  | some p =>
    (match p.ttype with
     | some tt => tt.inCommentT
     | none => false) && p.value.back != '\n'
  | none => false

/-- Model of sanitize_clause: clause is the raw text, statements its sqlparse
parse result. -/
def sanitizeClause (clause : String) (statements : List (List SToken)) :
    Except ClauseErr String :=
  match statements with
  | [st] =>
    (match sanitizeScan none 0 st with
     | .error e => .error e
     | .ok (prev, op) =>
       if op > 0 then .error .unclosedParen
       else .ok (if needsNewlineAfter prev then clause ++ "\n" else clause))
  | _ => .error .multipleStatements

/-- The last token of a list, or the given previous token when it is empty
(the value previous_token holds after the scan loop). -/
def lastOr (prev : Option SToken) : List SToken → Option SToken
  | [] => prev
  | t :: ts => lastOr (some t) ts

/-- Parenthesis-depth contribution of one token value. -/
def parenDelta (t : SToken) : Int :=
  if t.value == "(" then 1 else if t.value == ")" then -1 else 0

/-- Parenthesis depth accumulated over a token list. -/
def parenDepth (ts : List SToken) : Int :=
  ts.foldl (fun a t => a + parenDelta t) 0

/-- A token whose text takes part in neither comment-marker check. -/
def cleanTok (t : SToken) : Bool :=
  t.value != "/" && t.value != "*"

/- ===================== insert_rls ===================== -/

/-- States of the RLS scanning state machine. -/
inductive RlsState where
  | scanning
  | seenSource
  | foundTable
deriving DecidableEq, Repr

/-- A single-space whitespace token, as spliced by insert_rls. -/
def wsTok : SToken := SToken.tok TType.Whitespace " "

/-- Children of a token list (Python token.tokens); leaves have none. -/
def SToken.children : SToken → List SToken
  | .group _ ts => ts
  | .tok _ _ => []

/-- Synthetic WHERE clause built by insert_rls:
Where([Token(Keyword, WHERE), Token(Whitespace, space), rls]).  The rls
argument is an Option only because the scan carries one; the branches building
this clause are reached only in state FOUND_TABLE, where it is always some. -/
def synthWhere (rls : Option SToken) : SToken :=
  SToken.group GKind.Where
    [SToken.tok TType.Keyword "WHERE", wsTok, rls.getD (SToken.group GKind.Statement [])]

/-- Python slice assignment xs[i:i] = ins (insertion clamps at the ends). -/
def spliceAt (i : Nat) (ins xs : List SToken) : List SToken :=
  xs.take i ++ ins ++ xs.drop i

/-- Stop condition of the closing-parenthesis scan in the ON branch: a keyword
other than the boolean connectives AND/OR/NOT, or a WHERE clause node. -/
def onStop (s : SToken) : Bool :=
  (s.ttype == some TType.Keyword && !(s.matchKw TType.Keyword ["AND", "OR", "NOT"])) ||
    s.isWhereG

/-- The enumerate loop of the ON branch after the first stop test: Python sets
j to the running index, decrements it on break, and leaves it at the last
index when the loop completes. -/
def onScanGo (j : Nat) : List SToken → Int
  | [] => (j : Int) - 1
  | s :: rest => if onStop s then (j : Int) - 1 else onScanGo (j + 1) rest

/-- Value of j after `j = 0; for j, sibling in enumerate(l): if stop: j -= 1;
break`, which is 0 when the list is empty. -/
def onScanJ : List SToken → Int
  | [] => 0
  | s :: rest => onScanGo 0 (s :: rest)

mutual
/-- Model of one call of insert_rls on a token list: run the scan loop from
index 0 in state SCANNING with no predicate, then append a synthetic WHERE
clause when the statement ended in state FOUND_TABLE.  g models
get_rls_for_table (none: no dataset or no predicate).  fuel bounds the number
of loop iterations; the Python loop has no such bound but revisits freshly
spliced tokens, so each iteration of the model consumes one unit. -/
def insertRlsCall (g : SToken → Option SToken) : Nat → List SToken → List SToken
  | 0, ts => ts
  | fuel + 1, ts =>
    match insertRlsLoop g fuel ts 0 RlsState.scanning none with
    | (ts', st', rls') =>
      if st' = RlsState.foundTable then ts' ++ [wsTok, synthWhere rls'] else ts'

/-- Model of the for-loop of insert_rls: i indexes the live, mutated token
list exactly as Python's list iterator does (spliced tokens at positions after
i are visited; tokens spliced at or before i shift the remainder).  Each
iteration first recurses into a grouped token and writes the result back, then
runs the if/elif chain of the source. -/
def insertRlsLoop (g : SToken → Option SToken) :
    Nat → List SToken → Nat → RlsState → Option SToken →
    List SToken × RlsState × Option SToken
  | 0, ts, _, st, rls => (ts, st, rls)
  | fuel + 1, ts, i, st, rls =>
    match ts[i]? with
    | none => (ts, st, rls)
    | some t0 =>
      let t :=
        match t0 with
        | SToken.group k cs => SToken.group k (insertRlsCall g fuel cs)
        | leaf => leaf
      let ts1 := ts.set i t
      if t.matchKw TType.Keyword ["FROM", "JOIN"] = true then
        insertRlsLoop g fuel ts1 (i + 1) RlsState.seenSource rls
      else if st = RlsState.seenSource ∧
          (t.isIdentG = true ∨ t.ttype = some TType.Keyword) then
        match g t with
        | some r => insertRlsLoop g fuel ts1 (i + 1) RlsState.foundTable (some r)
        | none => insertRlsLoop g fuel ts1 (i + 1) RlsState.seenSource none
      else if st = RlsState.foundTable ∧ t.isWhereG = true then
        let cs := t.children
        let newWhere := SToken.group GKind.Where
          (cs.take 1 ++ [wsTok, SToken.tok TType.Punctuation "("] ++ cs.drop 1 ++
            [SToken.tok TType.Punctuation ")", wsTok, SToken.tok TType.Keyword "AND", wsTok] ++
            (rls.getD (SToken.group GKind.Statement [])).children)
        insertRlsLoop g fuel (ts1.set i newWhere) (i + 1) RlsState.scanning rls
      else if st = RlsState.foundTable ∧ t.ttype = some TType.Keyword ∧
          strUpper t.value = "ON" then
        let ins := [wsTok, rls.getD (SToken.group GKind.Statement []), wsTok,
                    SToken.tok TType.Keyword "AND", wsTok, SToken.tok TType.Punctuation "("]
        let ts2 := spliceAt (i + 1) ins ts1
        let k : Int := (i : Int) + 8 + onScanJ (ts2.drop (i + 8)) + 1
        let ts3 := spliceAt k.toNat [wsTok, SToken.tok TType.Punctuation ")", wsTok] ts2
        insertRlsLoop g fuel ts3 (i + 1) RlsState.scanning rls
      else if st = RlsState.foundTable ∧ t.ttype ≠ some TType.Whitespace then
        let ts2 := spliceAt i [wsTok, synthWhere rls, wsTok] ts1
        insertRlsLoop g fuel ts2 (i + 1) RlsState.scanning rls
      else if st = RlsState.seenSource ∧ t.ttype ≠ some TType.Whitespace then
        insertRlsLoop g fuel ts1 (i + 1) RlsState.scanning rls
      else
        insertRlsLoop g fuel ts1 (i + 1) st rls
end

/-- The rewritten WHERE clause produced when insert_rls meets a WHERE group in
state FOUND_TABLE: after the recursive pass over the children, the clause body
is wrapped in parentheses right after the WHERE keyword and the predicate is
appended behind an AND. -/
def whereWithRls (g : SToken → Option SToken) (fuel : Nat) (cs : List SToken)
    (r : SToken) : SToken :=
  let rec' := insertRlsCall g fuel cs
  SToken.group GKind.Where
    (rec'.take 1 ++ [wsTok, SToken.tok TType.Punctuation "("] ++ rec'.drop 1 ++
      [SToken.tok TType.Punctuation ")", wsTok, SToken.tok TType.Keyword "AND", wsTok] ++
      r.children)

/- ===================== sqlglot model (table extraction) ===================== -/

/-- Model of a sqlglot exp.Table node as consumed by
_extract_tables_from_statement: name, db and catalog (empty string when the
part is absent, as in sqlglot). -/
structure GTable where
  name : String
  db : String
  catalog : String
deriving DecidableEq, Repr

/-- Model of sqlglot optimizer ScopeType values. -/
inductive GScopeType where
  | rootS
  | subqueryS
  | derivedTableS
  | cteS
  | unionS
deriving DecidableEq, Repr

mutual
/-- Model of a sqlglot optimizer Scope as seen by the module: its type, its
sources mapping and its parent scope. -/
inductive ScopeM where
  | mk (stype : GScopeType) (srcs : List SrcEntry) (parent : Option ScopeM)

/-- One entry of Scope.sources: the bound name and either an exp.Table node or
a nested Scope (the representation sqlglot uses for CTEs and subqueries). -/
inductive SrcEntry where
  | tbl (nm : String) (t : GTable)
  | sub (nm : String) (s : ScopeM)
end

/-- Scope type accessor. -/
def ScopeM.stype : ScopeM → GScopeType
  | .mk st _ _ => st

/-- Scope sources accessor. -/
def ScopeM.srcs : ScopeM → List SrcEntry
  | .mk _ ss _ => ss

/-- Scope parent accessor. -/
def ScopeM.parent : ScopeM → Option ScopeM
  | .mk _ _ p => p

/-- Names bound to CTE scopes in a sources list, as collected by _is_cte. -/
def cteNamesOf (srcs : List SrcEntry) : List String :=
  srcs.filterMap (fun e =>
    match e with
    | SrcEntry.sub n s => if s.stype = GScopeType.cteS then some n else none
    | SrcEntry.tbl _ _ => none)

/-- The CTE names visible in the parent scope (empty when there is none),
exactly the set _is_cte tests membership in. -/
def parentCteNames (sc : ScopeM) : List String :=
  match sc.parent with
  | none => []
  | some p => cteNamesOf p.srcs

/-- Model of ParsedQuery._is_cte: the table's name is bound to a CTE scope in
the parent scope's sources. -/
def isCteSource (t : GTable) (sc : ScopeM) : Bool :=
  (parentCteNames sc).contains t.name

/-- CTE names bound anywhere along the ancestor chain of a scope. -/
def ScopeM.ancestorCteNames : ScopeM → List String
  | .mk _ _ none => []
  | .mk _ _ (some p) => cteNamesOf p.srcs ++ p.ancestorCteNames

/-- Model of the Table(...) construction in _extract_tables_from_statement:
empty db and catalog become None. -/
def tableOfSource (t : GTable) : Table :=
  ⟨t.name, if t.db = "" then none else some t.db,
    if t.catalog = "" then none else some t.catalog⟩

/-- The exp.Table sources of one scope that survive the _is_cte filter. -/
def scopeTableSources (sc : ScopeM) : List GTable :=
  sc.srcs.filterMap (fun e =>
    match e with
    | SrcEntry.tbl _ t => if isCteSource t sc then none else some t
    | SrcEntry.sub _ _ => none)

/-- Model of the statement shapes distinguished by
_extract_tables_from_statement: a DESCRIBE statement carrying its find_all
table nodes, a Command carrying its optional literal argument, or any other
statement carrying its traverse_scope output. -/
inductive GStatement where
  | describeS (tables : List GTable)
  | commandS (literal : Option String)
  | otherS (scopes : List ScopeM)

/-- Model of _extract_tables_from_statement.  pOne models parse_one followed
by find_all(exp.Table) on the synthetic SELECT built from a command's literal;
it returns an error exactly when parse_one raises ParseError, and that error
propagates, since the call sits outside the try of _extract_tables_from_sql. -/
def extractTablesFromStatement (pOne : String → Except Unit (List GTable)) :
    GStatement → Except Unit (Finset Table)
  | .describeS ts => .ok (ts.map tableOfSource).toFinset
  | .commandS none => .ok ∅
  | .commandS (some lit) =>
    (pOne ("SELECT " ++ lit)).map (fun ts => (ts.map tableOfSource).toFinset)
  | .otherS scopes =>
    .ok (((scopes.map scopeTableSources).flatten.map tableOfSource).toFinset)

/-- Union of the per-statement tables, stopping at the first propagated
error, as the set comprehension of _extract_tables_from_sql does. -/
def unionStatementTables (pOne : String → Except Unit (List GTable)) :
    List GStatement → Finset Table → Except Unit (Finset Table)
  | [], acc => .ok acc
  | st :: rest, acc =>
    match extractTablesFromStatement pOne st with
    | .error e => .error e
    | .ok s => unionStatementTables pOne rest (acc ∪ s)

/-- Model of ParsedQuery._extract_tables_from_sql.  parsed models the outcome
of sqlglot.parse on the stripped text: error when it raises ParseError (which
the function catches, returning the empty set), ok with the statement models
otherwise.  Errors raised later, by the per-command reparse, are outside the
try block and propagate. -/
def extractTablesFromSql (pOne : String → Except Unit (List GTable))
    (parsed : Except Unit (List GStatement)) : Except Unit (Finset Table) :=
  match parsed with
  | .error _ => .ok ∅
  | .ok stmts => unionStatementTables pOne stmts ∅

/- ===================== sqloxide model (lineage fallback) ===================== -/

/-- Model of the JSON-like tree returned by sqloxide.parse_sql. -/
inductive OxVal where
  | str (s : String)
  | obj (fields : List (String × OxVal))
  | arr (xs : List OxVal)

mutual
/-- Model of find_nodes_by_key: yield the value of every field named target,
recursing into lists and into the values of other fields. -/
def findNodesByKey (target : String) : OxVal → List OxVal
  | .str _ => []
  | .obj fs => findNodesInFields target fs
  | .arr xs => findNodesInArr target xs

/-- find_nodes_by_key over the fields of an object. -/
def findNodesInFields (target : String) : List (String × OxVal) → List OxVal
  | [] => []
  | (k, v) :: rest =>
    (if k = target then [v] else findNodesByKey target v) ++ findNodesInFields target rest

/-- find_nodes_by_key over the items of a list. -/
def findNodesInArr (target : String) : List OxVal → List OxVal
  | [] => []
  | v :: rest => findNodesByKey target v ++ findNodesInArr target rest
end

/-- The "value" field of one qualified-name part. -/
def oxPartValue : OxVal → Option String
  | .obj fs =>
    (match fs.find? (fun kv => kv.1 == "value") with
     | some (_, .str s) => some s
     | _ => none)
  | _ => none

/-- Model of Table(*[part["value"] for part in table["name"][::-1]]): the
reversed name parts become (table, schema, catalog).  An arity outside 1..3
raises TypeError in Python and a part without a string "value" field raises
KeyError; both are modelled here as contributing no table, a simplification
confined to the sqloxide success path. -/
def tableFromOxNode (v : OxVal) : Option Table :=
  match v with
  | .obj fs =>
    (match fs.find? (fun kv => kv.1 == "name") with
     | some (_, .arr parts) =>
       (match parts.reverse.map oxPartValue with
        | [some a] => some ⟨a, none, none⟩
        | [some a, some b] => some ⟨a, some b, none⟩
        | [some a, some b, some c] => some ⟨a, some b, some c⟩
        | _ => none)
     | _ => none)
  | _ => none

/-- Tables collected from a sqloxide tree. -/
def oxideTables (tree : OxVal) : Finset Table :=
  ((findNodesByKey "Table" tree).filterMap tableFromOxNode).toFinset

/-- Python truthiness of a sqloxide result (parse_sql returns a list; an empty
result is falsy and triggers the fallback just like an exception). -/
def oxTruthy : OxVal → Bool
  | .arr [] => false
  | .obj [] => false
  | .str "" => false
  | _ => true

/-- The SQLOXIDE_DIALECTS mapping, in its insertion order. -/
def sqloxideDialects : List (String × List String) :=
  [("ansi", ["trino", "trinonative", "presto"]),
   ("hive", ["hive", "databricks"]),
   ("ms", ["mssql"]),
   ("mysql", ["mysql"]),
   ("postgres", ["cockroachdb", "hana", "netezza", "postgres", "postgresql",
                 "redshift", "vertica"]),
   ("snowflake", ["snowflake"]),
   ("sqlite", ["sqlite", "gsheets", "shillelagh"]),
   ("clickhouse", ["clickhouse"])]

/-- The dialect-selection loop of extract_table_references: the loop variable
is assigned on every iteration and keeps its last value when no bucket
matches, so an unmatched dialect ends at the last key rather than "generic". -/
def bucketGo (cur : String) (sqla : String) : List (String × List String) → String
  | [] => cur
  | (d, ss) :: rest => if ss.contains sqla then d else bucketGo d sqla rest

/-- Dialect bucket chosen for a SQLAlchemy dialect identifier. -/
def bucketOf (sqla : String) : String :=
  bucketGo "generic" sqla sqloxideDialects

/-- Substitution of RE_JINJA_BLOCK, the pattern \x7b[%#][^\x7b\x7d%#]+[%#]\x7d,
by a single space, scanning left to right as re.sub does (on a failed match the
scan resumes one character later).  fuel bounds the scan; every step consumes
at least one character, so fuel equal to the length is always enough. -/
def jinjaBlockGo : Nat → List Char → List Char
  | 0, l => l
  | fuel + 1, l =>
    match l with
    | '{' :: m1 :: rest =>
      if m1 = '%' ∨ m1 = '#' then
        let body := rest.takeWhile (fun c => c != '{' && c != '}' && c != '%' && c != '#')
        match rest.drop body.length with
        | m2 :: '}' :: rest2 =>
          if (m2 = '%' ∨ m2 = '#') ∧ body ≠ [] then ' ' :: jinjaBlockGo fuel rest2
          else '{' :: jinjaBlockGo fuel (m1 :: rest)
        | _ => '{' :: jinjaBlockGo fuel (m1 :: rest)
      else '{' :: jinjaBlockGo fuel (m1 :: rest)
    | c :: rest => c :: jinjaBlockGo fuel rest
    | [] => []

/-- RE_JINJA_BLOCK substitution over a character list. -/
def jinjaBlockChars (l : List Char) : List Char :=
  jinjaBlockGo l.length l

/-- Substitution of RE_JINJA_VAR, the pattern \x7b\x7b[^\x7b\x7d]+\x7d\x7d, by
the literal abc, scanning left to right as re.sub does; fuel as above. -/
def jinjaVarGo : Nat → List Char → List Char
  | 0, l => l
  | fuel + 1, l =>
    match l with
    | '{' :: '{' :: rest =>
      let body := rest.takeWhile (fun c => c != '{' && c != '}')
      match rest.drop body.length with
      | '}' :: '}' :: rest2 =>
        if body ≠ [] then 'a' :: 'b' :: 'c' :: jinjaVarGo fuel rest2
        else '{' :: jinjaVarGo fuel ('{' :: rest)
      | _ => '{' :: jinjaVarGo fuel ('{' :: rest)
    | c :: rest => c :: jinjaVarGo fuel rest
    | [] => []

/-- RE_JINJA_VAR substitution over a character list. -/
def jinjaVarChars (l : List Char) : List Char :=
  jinjaVarGo l.length l

/-- The Jinja substitutions applied by extract_table_references, in order. -/
def jinjaSub (s : String) : String :=
  String.mk (jinjaVarChars (jinjaBlockChars s.data))

/-- Model of extract_table_references.  tablesFn models ParsedQuery(...).tables
on a given text; ox models sqloxide_parse (none when the package is
unavailable; the inner none models a raised exception). -/
def extractTableReferences (tablesFn : String → Finset Table)
    (ox : Option (String → String → Option OxVal))
    (sqlText : String) (sqlaDialect : String) : Finset Table :=
  match ox with
  | none => tablesFn sqlText
  | some oxparse =>
    let dialect := bucketOf sqlaDialect
    let subbed := jinjaSub sqlText
    match oxparse subbed dialect with
    | some tree => if oxTruthy tree then oxideTables tree else tablesFn subbed
    | none => tablesFn subbed

/- ===================== concrete modelled inputs ===================== -/

/-- Modelled sqlparse parse of "SELECT 1" (one statement). -/
def stmtSelect1 : List SToken :=
  [SToken.tok TType.DML "SELECT", wsTok, SToken.tok TType.IntegerLit "1"]

/-- Modelled sqlparse parse of the first statement of
"SELECT 1 LIMIT 5; SELECT 2". -/
def stmtLimit5 : List SToken :=
  [SToken.tok TType.DML "SELECT", wsTok, SToken.tok TType.IntegerLit "1", wsTok,
   SToken.tok TType.Keyword "LIMIT", wsTok, SToken.tok TType.IntegerLit "5",
   SToken.tok TType.Punctuation ";"]

/-- Modelled sqlparse parse of the second statement of
"SELECT 1 LIMIT 5; SELECT 2" (the leading space stays with the statement). -/
def stmtSelect2 : List SToken :=
  [wsTok, SToken.tok TType.DML "SELECT", wsTok, SToken.tok TType.IntegerLit "2"]

/-- Modelled sqlparse parse of "SELECT 1 LIMIT 500". -/
def stmtLimit500 : List SToken :=
  [SToken.tok TType.DML "SELECT", wsTok, SToken.tok TType.IntegerLit "1", wsTok,
   SToken.tok TType.Keyword "LIMIT", wsTok, SToken.tok TType.IntegerLit "500"]

/-- Modelled sqlparse parse of "SELECT 1 LIMIT 0". -/
def stmtLimit0 : List SToken :=
  [SToken.tok TType.DML "SELECT", wsTok, SToken.tok TType.IntegerLit "1", wsTok,
   SToken.tok TType.Keyword "LIMIT", wsTok, SToken.tok TType.IntegerLit "0"]

/-- Modelled sqlparse parse of "INSERT INTO t VALUES (1)"; its declared type
INSERT alone decides is_select. -/
def stmtInsert : List SToken :=
  [SToken.tok TType.DML "INSERT", wsTok, SToken.tok TType.Keyword "INTO", wsTok,
   SToken.group GKind.Identifier [SToken.tok TType.Name "t"], wsTok,
   SToken.tok TType.Keyword "VALUES", wsTok,
   SToken.group GKind.Parenthesis
     [SToken.tok TType.Punctuation "(", SToken.tok TType.IntegerLit "1",
      SToken.tok TType.Punctuation ")"]]

/-- Modelled sqlparse parse of "EXPLAIN SELECT 1": EXPLAIN lexes as a plain
keyword, so the declared type is UNKNOWN and the first token is a keyword. -/
def stmtExplain : List SToken :=
  [SToken.tok TType.Keyword "EXPLAIN", wsTok, SToken.tok TType.DML "SELECT", wsTok,
   SToken.tok TType.IntegerLit "1"]

/-- Modelled sqlparse parse of "foo UNION SELECT 1": declared type UNKNOWN
(the first meaningful token is an identifier), passing every UNKNOWN check. -/
def stmtUnknownUnion : List SToken :=
  [SToken.group GKind.Identifier [SToken.tok TType.Name "foo"], wsTok,
   SToken.tok TType.Keyword "UNION", wsTok, SToken.tok TType.DML "SELECT", wsTok,
   SToken.tok TType.IntegerLit "1"]

/-- Modelled sqlparse parse of the clause "a = 1 AND (b = 2)": the comparison
and the parenthesis are grouped, so no bare parenthesis token appears at the
top level. -/
def clauseBalanced : List SToken :=
  [SToken.group GKind.Comparison
     [SToken.tok TType.Name "a", wsTok, SToken.tok TType.Operator "=", wsTok,
      SToken.tok TType.IntegerLit "1"],
   wsTok, SToken.tok TType.Keyword "AND", wsTok,
   SToken.group GKind.Parenthesis
     [SToken.tok TType.Punctuation "(",
      SToken.group GKind.Comparison
        [SToken.tok TType.Name "b", wsTok, SToken.tok TType.Operator "=", wsTok,
         SToken.tok TType.IntegerLit "2"],
      SToken.tok TType.Punctuation ")"]]

/-- The comparison group of the clause "a = 1)". -/
def cmpA1 : SToken :=
  SToken.group GKind.Comparison
    [SToken.tok TType.Name "a", wsTok, SToken.tok TType.Operator "=", wsTok,
     SToken.tok TType.IntegerLit "1"]

/-- Modelled sqlparse parse of the two statements of "a=1; DROP TABLE x". -/
def stmtsMultiCx : List (List SToken) :=
  [[SToken.group GKind.Comparison
      [SToken.tok TType.Name "a", SToken.tok TType.Operator "=",
       SToken.tok TType.IntegerLit "1"],
    SToken.tok TType.Punctuation ";"],
   [wsTok, SToken.tok TType.DDL "DROP", wsTok, SToken.tok TType.Keyword "TABLE",
    wsTok, SToken.group GKind.Identifier [SToken.tok TType.Name "x"]]]

/-- An RLS predicate token tree, modelling
sqlparse.parse("orders.user_id = 5")[0] after add_table_name. -/
def rlsExample : SToken :=
  SToken.group GKind.Statement
    [SToken.group GKind.Comparison
      [SToken.group GKind.Identifier
        [SToken.tok TType.Name "orders", SToken.tok TType.Punctuation ".",
         SToken.tok TType.Name "user_id"],
       wsTok, SToken.tok TType.Operator "=", wsTok,
       SToken.tok TType.IntegerLit "5"]]

/-- A predicate lookup resolving the table "orders" to rlsExample and nothing
else, modelling get_rls_for_table. -/
def gOrders : SToken → Option SToken :=
  fun t => if t.value == "orders" then some rlsExample else none

/-- Modelled sqlparse parse of "SELECT * FROM orders". -/
def stmtFromOrders : List SToken :=
  [SToken.tok TType.DML "SELECT", wsTok, SToken.tok TType.Wildcard "*", wsTok,
   SToken.tok TType.Keyword "FROM", wsTok,
   SToken.group GKind.Identifier [SToken.tok TType.Name "orders"]]

/-- Children of a WHERE clause with body "x = 1", as parsed by sqlparse. -/
def whereBodyX1 : List SToken :=
  [SToken.tok TType.Keyword "WHERE", wsTok,
   SToken.group GKind.Comparison
     [SToken.tok TType.Name "x", wsTok, SToken.tok TType.Operator "=", wsTok,
      SToken.tok TType.IntegerLit "1"]]

/-- A WHERE clause group with body "x = 1". -/
def whereX1 : SToken :=
  SToken.group GKind.Where whereBodyX1

/-- Snapshot of the CTE scope of "WITH w AS (SELECT * FROM t) SELECT * FROM w"
as stored inside the root scope's sources. -/
def cteScopeInner : ScopeM := ScopeM.mk GScopeType.cteS [] none

/-- The root scope of the WITH example: its only source binds w to a CTE
scope. -/
def rootScopeW : ScopeM :=
  ScopeM.mk GScopeType.rootS [SrcEntry.sub "w" cteScopeInner] none

/-- The CTE scope of the WITH example as yielded by traverse_scope: it reads
from the real table t and its parent is the root scope. -/
def cteScopeW : ScopeM :=
  ScopeM.mk GScopeType.cteS [SrcEntry.tbl "t" ⟨"t", "", ""⟩] (some rootScopeW)

/-- Modelled traverse_scope output for
"WITH w AS (SELECT * FROM t) SELECT * FROM w" (inner scopes first). -/
def withExampleScopes : List ScopeM := [cteScopeW, rootScopeW]

/-- Model of sqlglot parse_one followed by find_all(exp.Table) on the
synthetic SELECT texts arising in the examples: the literal of
SHOW COLUMNS FROM x reparses to a SELECT reading x, while the literal "(",
carried by a command such as "SHOW (", yields "SELECT (", on which parse_one
raises ParseError. -/
def parseOneM : String → Except Unit (List GTable) := fun q =>
  if q = "SELECT COLUMNS FROM x" then .ok [⟨"x", "", ""⟩]
  else if q = "SELECT (" then .error ()
  else .ok []

/-- A SQL text containing one Jinja variable template. -/
def jinjaSqlCx : String := "SELECT * FROM \x7b\x7b tbl \x7d\x7d"

/-- A ParsedQuery.tables model distinguishing the original text from every
other text, to witness which text the fallback delegates to. -/
def tablesFnCx : String → Finset Table :=
  fun s => if s = jinjaSqlCx then {⟨"orig", none, none⟩} else {⟨"sub", none, none⟩}

/-- A sqloxide parse that always raises. -/
def oxFailCx : String → String → Option OxVal := fun _ _ => none

/-- The LIMIT keyword token. -/
def limitKwTok : SToken := SToken.tok TType.Keyword "LIMIT"

/-- An integer literal token. -/
def numTok (v : String) : SToken := SToken.tok TType.IntegerLit v

mutual
/-- A token-type test evaluated anywhere in a token tree, at any depth (the
sense of the claim's "no DDL token anywhere in it"). -/
def SToken.anyTokDeep (p : TType → Bool) : SToken → Bool
  | .tok t _ => p t
  | .group _ ts => SToken.anyTokDeepList p ts

/-- Deep token-type test over a token list. -/
def SToken.anyTokDeepList (p : TType → Bool) : List SToken → Bool
  | [] => false
  | t :: ts => SToken.anyTokDeep p t || SToken.anyTokDeepList p ts
end

/-- Modelled sqlparse parse of "foo UNION SELECT 1 FROM (CREATE TABLE x)":
declared type UNKNOWN (the first meaningful token is an identifier group),
clean among its direct children, but carrying a DDL token nested inside the
parenthesis group, where the shallow scan of is_select never looks. -/
def stmtNestedDdl : List SToken :=
  [SToken.group GKind.Identifier [SToken.tok TType.Name "foo"], wsTok,
   SToken.tok TType.Keyword "UNION", wsTok, SToken.tok TType.DML "SELECT", wsTok,
   SToken.tok TType.IntegerLit "1", wsTok, SToken.tok TType.Keyword "FROM", wsTok,
   SToken.group GKind.Parenthesis
     [SToken.tok TType.Punctuation "(", SToken.tok TType.DDL "CREATE", wsTok,
      SToken.tok TType.Keyword "TABLE", wsTok,
      SToken.group GKind.Identifier [SToken.tok TType.Name "x"],
      SToken.tok TType.Punctuation ")"]]

/-- Modelled sqlparse parse of "SELECT 1 LIMIT -500" (the integer lexer rule
admits a leading minus sign, so the LIMIT value token is "-500"). -/
def stmtLimitNeg500 : List SToken :=
  [SToken.tok TType.DML "SELECT", wsTok, SToken.tok TType.IntegerLit "1", wsTok,
   SToken.tok TType.Keyword "LIMIT", wsTok, SToken.tok TType.IntegerLit "-500"]

/- ===================== theorems ===================== -/

theorem intercalate_single (sep x : String) : String.intercalate sep [x] = x := rfl

/-- C8: Table equality does compare canonical strings, but hashing does not
agree with it: Table("t", schema="") and Table("t") are __eq__-equal (both
canonicalize to "t") while their dataclass hash keys (field tuples) differ, so
a set can hold both of them. -/
theorem c8_eq_hash_inconsistency :
    tableEqObj ⟨"t", some "", none⟩ (PyObj.ptable ⟨"t", none, none⟩) = true ∧
    tableHashKey ⟨"t", some "", none⟩ ≠ tableHashKey ⟨"t", none, none⟩ :=
  ⟨rfl, by decide⟩

/-- C10: Table.__eq__ compares str(self) with str(other) for an arbitrary
right operand, so t == o holds iff the canonical string of t equals str(o);
in particular a Table whose name survives the encoding unchanged compares
equal to that plain string. -/
theorem c10_table_eq_any_operand :
    (∀ (t : Table) (o : PyObj), tableEqObj t o = true ↔ tableStr t = pyStr o) ∧
    (∀ s : String, encodePart s = s → s ≠ "" →
      tableEqObj ⟨s, none, none⟩ (PyObj.pstr s) = true) := by
  constructor
  · intro t o
    simp [tableEqObj]
  · intro s h1 h2
    have hft : (s != "") = true := by simpa using h2
    simp only [tableEqObj, tableStr, pyStr, List.filterMap, List.filter, id]
    simp [hft, h1, intercalate_single]

theorem c10_table_eq_any_operand_witness :
    tableEqObj ⟨"users", none, none⟩ (PyObj.pstr "users") = true :=
  c10_table_eq_any_operand.2 "users" (by rfl) (by decide)

/-- C3 counterexample: for "SELECT 1 LIMIT 5; SELECT 2" the construction loop
reassigns the cached limit from every statement, ending with the last
statement, which has no LIMIT; the computed limit is None, not 5. -/
theorem c3_counterexample :
    pqLimit [stmtLimit5, stmtSelect2] = none ∧
    pqLimit [stmtLimit5, stmtSelect2] ≠ some 5 :=
  ⟨rfl, by decide⟩

/-- C3 (amended): the limit computed during ParsedQuery construction equals
the limit extracted from the last statement of the document — None when that
statement has no LIMIT clause — because the loop overwrites the cached value
on every statement. -/
theorem c3_limit_is_last_statement (ps : List (List SToken)) (st : List SToken) :
    pqLimit (ps ++ [st]) = extractLimitFromQuery st := by
  simp [pqLimit, List.foldl_append]

theorem unionStatementTables_ok (pOne : String → Except Unit (List GTable)) :
    ∀ (stmts : List GStatement) (acc : Finset Table),
      (∀ lit, GStatement.commandS (some lit) ∈ stmts →
        ∃ ts, pOne ("SELECT " ++ lit) = .ok ts) →
      ∃ S, unionStatementTables pOne stmts acc = .ok S := by
  intro stmts
  induction stmts with
  | nil => exact fun acc _ => ⟨acc, rfl⟩
  | cons st rest ih =>
    intro acc h
    have hrest : ∀ lit, GStatement.commandS (some lit) ∈ rest →
        ∃ ts, pOne ("SELECT " ++ lit) = .ok ts :=
      fun lit hm => h lit (List.mem_cons_of_mem _ hm)
    cases st with
    | describeS ts => simpa [unionStatementTables] using ih _ hrest
    | otherS scopes => simpa [unionStatementTables] using ih _ hrest
    | commandS lit =>
      cases lit with
      | none => simpa [unionStatementTables, extractTablesFromStatement] using ih _ hrest
      | some l =>
        obtain ⟨ts, hts⟩ := h l (List.mem_cons_self _ _)
        simpa [unionStatementTables, extractTablesFromStatement, hts] using ih _ hrest

/-- C4 (amended): a ParseError of the outer structural parse is caught and
yields the empty set, and table extraction succeeds for every statement shape
whose embedded command literal reparses successfully — including
SHOW COLUMNS FROM x, whose literal is reparsed as a synthetic SELECT.  The
reparse itself, however, runs outside the exception handler, so its failure
propagates (see the counterexample). -/
theorem c4_parse_failure_empty_set :
    (∀ pOne : String → Except Unit (List GTable),
      extractTablesFromSql pOne (Except.error ()) = .ok ∅) ∧
    (extractTablesFromSql parseOneM
        (Except.ok [GStatement.commandS (some "COLUMNS FROM x")]) =
      .ok {(⟨"x", none, none⟩ : Table)}) ∧
    (∀ (pOne : String → Except Unit (List GTable)) (stmts : List GStatement),
      (∀ lit, GStatement.commandS (some lit) ∈ stmts →
        ∃ ts, pOne ("SELECT " ++ lit) = .ok ts) →
      ∃ S, extractTablesFromSql pOne (.ok stmts) = .ok S) := by
  refine ⟨fun _ => rfl, ?_, ?_⟩
  · have h1 : extractTablesFromSql parseOneM
        (Except.ok [GStatement.commandS (some "COLUMNS FROM x")]) =
        .ok (∅ ∪ [(⟨"x", none, none⟩ : Table)].toFinset) := rfl
    rw [h1]
    simp
  · intro pOne stmts h
    exact unionStatementTables_ok pOne stmts ∅ h

theorem c4_parse_failure_empty_set_witness :
    ∃ S, extractTablesFromSql parseOneM
      (Except.ok [GStatement.commandS (some "COLUMNS FROM x")]) = .ok S := by
  refine c4_parse_failure_empty_set.2.2 parseOneM _ ?_
  intro lit hmem
  cases hmem with
  | head => exact ⟨[⟨"x", "", ""⟩], rfl⟩
  | tail _ h2 => cases h2

/-- C4 counterexample: a command statement whose literal does not reparse —
modelling e.g. "SHOW (", whose Command literal is "(" — makes the synthetic
reparse raise, and since parse_one is called outside the try block the error
propagates out of tables instead of yielding an empty set. -/
theorem c4_counterexample :
    extractTablesFromSql parseOneM (Except.ok [GStatement.commandS (some "(")]) =
      Except.error () := rfl

/-- C9 (amended): when sqloxide is unavailable the fallback delegates to
ParsedQuery.tables on the original input text, but when sqloxide fails the
Jinja substitutions have already been applied in place, so the fallback
delegates to ParsedQuery.tables on the template-substituted text. -/
theorem c9_fallback_delegation :
    (∀ (tablesFn : String → Finset Table) (s d : String),
      extractTableReferences tablesFn none s d = tablesFn s) ∧
    (∀ (tablesFn : String → Finset Table)
        (oxparse : String → String → Option OxVal) (s d : String),
      oxparse (jinjaSub s) (bucketOf d) = none →
      extractTableReferences tablesFn (some oxparse) s d = tablesFn (jinjaSub s)) := by
  refine ⟨fun _ _ _ => rfl, ?_⟩
  intro tablesFn oxparse s d h
  simp [extractTableReferences, h]

theorem c9_fallback_delegation_witness :
    extractTableReferences tablesFnCx (some oxFailCx) jinjaSqlCx "trino" =
      tablesFnCx (jinjaSub jinjaSqlCx) :=
  c9_fallback_delegation.2 tablesFnCx oxFailCx jinjaSqlCx "trino" rfl

/-- C9 counterexample: with sqloxide available but failing on a templated
query, the fallback result is computed from the substituted text
"SELECT * FROM abc", not from the original text, so it differs from
ParsedQuery.tables on the original input. -/
theorem c9_counterexample :
    extractTableReferences tablesFnCx (some oxFailCx) jinjaSqlCx "trino" =
      {(⟨"sub", none, none⟩ : Table)} ∧
    tablesFnCx jinjaSqlCx = {(⟨"orig", none, none⟩ : Table)} ∧
    extractTableReferences tablesFnCx (some oxFailCx) jinjaSqlCx "trino" ≠
      tablesFnCx jinjaSqlCx := by
  have e1 : extractTableReferences tablesFnCx (some oxFailCx) jinjaSqlCx "trino" =
      {(⟨"sub", none, none⟩ : Table)} := rfl
  have e2 : tablesFnCx jinjaSqlCx = {(⟨"orig", none, none⟩ : Table)} := rfl
  refine ⟨e1, e2, ?_⟩
  rw [e1, e2]
  simp [Finset.singleton_inj]

/-- C1: table extraction never keeps a source filtered by _is_cte.  The first
part computes the documented example: the tables of
"WITH w AS (SELECT * FROM t) SELECT * FROM w" are exactly {Table("t")}, with
the alias w excluded.  The second part is the general statement: under the
sqlglot scope invariant that CTE names visible from any ancestor are also
recorded in the immediate parent's sources (sqlglot propagates cte sources
down every scope chain, and _is_cte tests the immediate parent), every table
in the result set is constructed from a source whose name is not a CTE alias
bound anywhere in the ancestor chain of its scope. -/
theorem c1_tables_exclude_cte_aliases :
    (∀ pOne : String → Except Unit (List GTable),
      extractTablesFromStatement pOne (GStatement.otherS withExampleScopes) =
        .ok {(⟨"t", none, none⟩ : Table)}) ∧
    (∀ scopes : List ScopeM,
      (∀ sc ∈ scopes, ∀ n, n ∈ sc.ancestorCteNames → n ∈ parentCteNames sc) →
      ∀ tb ∈ ((scopes.map scopeTableSources).flatten.map tableOfSource).toFinset,
        ∃ sc ∈ scopes, ∃ nm t, SrcEntry.tbl nm t ∈ sc.srcs ∧
          tb = tableOfSource t ∧ t.name ∉ sc.ancestorCteNames) := by
  constructor
  · intro pOne
    have h1 : extractTablesFromStatement pOne (GStatement.otherS withExampleScopes) =
        .ok ([(⟨"t", none, none⟩ : Table)].toFinset) := rfl
    rw [h1]
    simp
  · intro scopes hprop tb htb
    rw [List.mem_toFinset] at htb
    obtain ⟨g, hg, rfl⟩ := List.mem_map.mp htb
    obtain ⟨l, hl, hgl⟩ := List.mem_flatten.mp hg
    obtain ⟨sc, hsc, rfl⟩ := List.mem_map.mp hl
    obtain ⟨e, he, hmatch⟩ := List.mem_filterMap.mp hgl
    cases e with
    | sub nm s => simp [scopeTableSources] at hmatch
    | tbl nm t =>
      cases hct : isCteSource t sc with
      | true => simp [hct] at hmatch
      | false =>
        simp [hct] at hmatch
        subst hmatch
        refine ⟨sc, hsc, nm, t, he, rfl, ?_⟩
        intro hanc
        have hpar := hprop sc hsc t.name hanc
        have hcontains : isCteSource t sc = true := by
          simpa [isCteSource, List.contains, List.elem_eq_mem] using hpar
        rw [hct] at hcontains
        exact Bool.false_ne_true hcontains

theorem c1_tables_exclude_cte_aliases_witness :
    ∃ sc ∈ withExampleScopes, ∃ nm t, SrcEntry.tbl nm t ∈ sc.srcs ∧
      (⟨"t", none, none⟩ : Table) = tableOfSource t ∧ t.name ∉ sc.ancestorCteNames := by
  refine c1_tables_exclude_cte_aliases.2 withExampleScopes ?_ ⟨"t", none, none⟩ ?_
  · intro sc hsc n hn
    cases hsc with
    | head =>
      simpa [cteScopeW, rootScopeW, cteScopeInner, ScopeM.ancestorCteNames,
        parentCteNames, cteNamesOf, ScopeM.srcs, ScopeM.parent, ScopeM.stype] using hn
    | tail _ h2 =>
      cases h2 with
      | head => simp [rootScopeW, ScopeM.ancestorCteNames] at hn
      | tail _ h3 => cases h3
  · rw [List.mem_toFinset]
    decide

/-- C6 (amended): is_select is true for "SELECT 1", false for
"INSERT INTO t VALUES (1)" and false for "EXPLAIN SELECT 1"; and a statement
of declared type UNKNOWN passes only if its top-level token sequence — the
direct children scanned by the code's `for token in statement` loops, with
nested groups not examined — has no DDL token, no DML token normalizing to
something other than SELECT, a first token that is not a bare keyword, and at
least one DML token normalizing to SELECT. -/
theorem c6_is_select_rules :
    (∀ ox, isSelectModel ox [stmtSelect1] = true) ∧
    (∀ ox, isSelectModel ox [stmtInsert] = false) ∧
    (∀ ox, isSelectModel ox [stmtExplain] = false) ∧
    (∀ (ox : Option Bool) (st : List SToken),
      getType st = "UNKNOWN" → isSelectStmt ox st = true →
      st.any isDdlTok = false ∧ st.any isNonSelectDml = false ∧
      (match st with
       | t :: _ => t.ttype ≠ some TType.Keyword
       | [] => True) ∧
      st.any isSelectDml = true) := by
  refine ⟨fun ox => rfl, fun ox => rfl, fun ox => rfl, ?_⟩
  intro ox st h1 h2
  unfold isSelectStmt at h2
  rw [h1] at h2
  simp only [show (("UNKNOWN" : String) == "SELECT") = false from rfl,
    show (("UNKNOWN" : String) != "UNKNOWN") = false from rfl,
    Bool.false_eq_true, if_false] at h2
  split at h2
  · exact absurd h2 (by simp)
  · split at h2
    · exact absurd h2 (by simp)
    · split at h2
      · exact absurd h2 (by simp)
      · rename_i hcte hddl hkw
        simp only [Bool.or_eq_true, not_or, Bool.not_eq_true] at hddl
        refine ⟨hddl.1, hddl.2, ?_, h2⟩
        cases st with
        | nil => trivial
        | cons t rest => simpa using hkw

theorem c6_is_select_rules_witness :
    stmtUnknownUnion.any isDdlTok = false ∧
    stmtUnknownUnion.any isNonSelectDml = false ∧
    (match stmtUnknownUnion with
     | t :: _ => t.ttype ≠ some TType.Keyword
     | [] => True) ∧
    stmtUnknownUnion.any isSelectDml = true :=
  c6_is_select_rules.2.2.2 none stmtUnknownUnion (by decide) (by decide)

theorem parenDepth_foldl (l : List SToken) (a : Int) :
    l.foldl (fun x t => x + parenDelta t) a = a + parenDepth l := by
  induction l generalizing a with
  | nil => simp [parenDepth]
  | cons t ts ih =>
    simp only [parenDepth, List.foldl_cons]
    rw [ih, ih (0 + parenDelta t)]
    ring

theorem parenDepth_cons (t : SToken) (ts : List SToken) :
    parenDepth (t :: ts) = parenDelta t + parenDepth ts := by
  simp only [parenDepth, List.foldl_cons]
  rw [parenDepth_foldl]
  simp only [parenDepth]
  ring

theorem sanitizeScan_ok (ts : List SToken) : ∀ (prev : Option SToken) (op : Int),
    (∀ u ∈ ts, cleanTok u = true) →
    (∀ k, 0 ≤ op + parenDepth (List.take k ts)) →
    sanitizeScan prev op ts = .ok (lastOr prev ts, op + parenDepth ts) := by
  induction ts with
  | nil =>
    intro prev op _ _
    simp [sanitizeScan, lastOr, parenDepth]
  | cons t ts ih =>
    intro prev op hclean hpre
    have hct := hclean t (List.mem_cons_self t ts)
    simp only [cleanTok, Bool.and_eq_true, bne_iff_ne, ne_eq] at hct
    have hc1 : (t.value == "/") = false := beq_eq_false_iff_ne.mpr hct.1
    have hc2 : (t.value == "*") = false := beq_eq_false_iff_ne.mpr hct.2
    have h1 : 0 ≤ op + parenDelta t := by
      have := hpre 1
      simpa [parenDepth_cons, parenDepth] using this
    have htail : ∀ k, 0 ≤ (op + parenDelta t) + parenDepth (List.take k ts) := by
      intro k
      have := hpre (k + 1)
      simpa [List.take_succ_cons, parenDepth_cons, add_assoc] using this
    have hcleantail : ∀ u ∈ ts, cleanTok u = true :=
      fun u hu => hclean u (List.mem_cons_of_mem _ hu)
    simp only [sanitizeScan, hc1, hc2, Bool.false_and, Bool.false_eq_true, if_false]
    cases hp : (t.value == "(") with
    | true =>
      have hdel : parenDelta t = 1 := by simp [parenDelta, hp]
      rw [hdel] at h1 htail
      simp only [hp, Bool.true_or, Bool.true_and, if_true]
      have hng : ¬(decide (op + 1 < 0) = true) := by
        simpa using (by omega : ¬ op + 1 < 0)
      rw [if_neg hng]
      rw [ih (some t) (op + 1) hcleantail htail]
      simp only [lastOr, parenDepth_cons, hdel, Except.ok.injEq, Prod.mk.injEq,
        true_and]
      omega
    | false =>
      cases hq : (t.value == ")") with
      | true =>
        have hdel : parenDelta t = -1 := by simp [parenDelta, hp, hq]
        rw [hdel] at h1 htail
        simp only [hp, hq, Bool.false_eq_true, Bool.false_or, Bool.true_or,
          Bool.true_and, if_true, if_false]
        have hng : ¬(decide (op - 1 < 0) = true) := by
          simpa using (by omega : ¬ op - 1 < 0)
        rw [if_neg hng]
        rw [ih (some t) (op - 1) hcleantail htail]
        simp only [lastOr, parenDepth_cons, hdel, Except.ok.injEq, Prod.mk.injEq,
          true_and]
        omega
      | false =>
        have hdel : parenDelta t = 0 := by simp [parenDelta, hp, hq]
        rw [hdel] at h1 htail
        simp only [hp, hq, Bool.false_eq_true, Bool.false_or, Bool.false_and,
          if_false]
        rw [ih (some t) op hcleantail (by simpa using htail)]
        simp only [lastOr, parenDepth_cons, hdel, Except.ok.injEq, Prod.mk.injEq,
          true_and]
        omega

theorem sanitizeScan_step (t : SToken) (ts : List SToken) (prev : Option SToken)
    (op : Int) (hct : cleanTok t = true) (h1 : 0 ≤ op + parenDelta t) :
    sanitizeScan prev op (t :: ts) = sanitizeScan (some t) (op + parenDelta t) ts := by
  simp only [cleanTok, Bool.and_eq_true, bne_iff_ne, ne_eq] at hct
  have hc1 : (t.value == "/") = false := beq_eq_false_iff_ne.mpr hct.1
  have hc2 : (t.value == "*") = false := beq_eq_false_iff_ne.mpr hct.2
  simp only [sanitizeScan, hc1, hc2, Bool.false_and, Bool.false_eq_true, if_false]
  cases hp : (t.value == "(") with
  | true =>
    have hdel : parenDelta t = 1 := by simp [parenDelta, hp]
    rw [hdel] at h1 ⊢
    simp only [hp, Bool.true_or, Bool.true_and, if_true]
    have hng : ¬(decide (op + 1 < 0) = true) := by
      simpa using (by omega : ¬ op + 1 < 0)
    rw [if_neg hng]
  | false =>
    cases hq : (t.value == ")") with
    | true =>
      have hdel : parenDelta t = -1 := by simp [parenDelta, hp, hq]
      rw [hdel] at h1 ⊢
      simp only [hp, hq, Bool.false_eq_true, Bool.false_or, Bool.true_and,
        if_false, if_true]
      have hng : ¬(decide (op - 1 < 0) = true) := by
        simpa using (by omega : ¬ op - 1 < 0)
      rw [if_neg hng]
      have harith : op + -1 = op - 1 := by ring
      rw [harith]
    | false =>
      have hdel : parenDelta t = 0 := by simp [parenDelta, hp, hq]
      rw [hdel] at h1 ⊢
      simp only [hp, hq, Bool.false_eq_true, Bool.false_or, Bool.false_and,
        if_false, add_zero]

theorem sanitizeScan_negative (pre : List SToken) :
    ∀ (t : SToken) (suf : List SToken) (prev : Option SToken) (op : Int),
    (∀ u ∈ pre, cleanTok u = true) → cleanTok t = true →
    (∀ k, 0 ≤ op + parenDepth (List.take k pre)) →
    op + parenDepth (pre ++ [t]) < 0 →
    sanitizeScan prev op (pre ++ t :: suf) = .error .closingUnclosedParen := by
  induction pre with
  | nil =>
    intro t suf prev op _ hct hpre hneg
    have hop : 0 ≤ op := by simpa [parenDepth] using hpre 0
    rw [List.nil_append, parenDepth_cons] at hneg
    simp only [parenDepth, List.foldl_nil, add_zero] at hneg
    simp only [cleanTok, Bool.and_eq_true, bne_iff_ne, ne_eq] at hct
    have hc1 : (t.value == "/") = false := beq_eq_false_iff_ne.mpr hct.1
    have hc2 : (t.value == "*") = false := beq_eq_false_iff_ne.mpr hct.2
    have hq : (t.value == ")") = true := by
      by_contra hq'
      have hq2 : (t.value == ")") = false := by simpa using hq'
      by_cases hp : (t.value == "(") = true
      · simp [parenDelta, hp] at hneg
        omega
      · have hp2 : (t.value == "(") = false := by simpa using hp
        simp [parenDelta, hp2, hq2] at hneg
        omega
    have hp2 : (t.value == "(") = false := by
      by_contra hp'
      have hp3 : (t.value == "(") = true := by simpa using hp'
      have e2 := eq_of_beq hq
      rw [eq_of_beq hp3] at e2
      simp at e2
    have hdm : parenDelta t = -1 := by simp [parenDelta, hp2, hq]
    rw [hdm] at hneg
    simp only [List.nil_append, sanitizeScan, hc1, hc2, Bool.false_and,
      Bool.false_eq_true, if_false, hp2, hq, Bool.false_or, Bool.true_and,
      if_true]
    rw [if_pos (by simpa using (by omega : op - 1 < 0))]
  | cons p pre' ih =>
    intro t suf prev op hclean hct hpre hneg
    have hcp := hclean p (List.mem_cons_self p pre')
    have h1 : 0 ≤ op + parenDelta p := by
      have := hpre 1
      simpa [parenDepth_cons, parenDepth] using this
    rw [List.cons_append, sanitizeScan_step p (pre' ++ t :: suf) prev op hcp h1]
    refine ih t suf (some p) (op + parenDelta p) ?_ hct ?_ ?_
    · exact fun u hu => hclean u (List.mem_cons_of_mem _ hu)
    · intro k
      have := hpre (k + 1)
      simpa [List.take_succ_cons, parenDepth_cons, add_assoc] using this
    · rw [List.cons_append, parenDepth_cons] at hneg
      omega

theorem parenDepth_zero_of_all (l : List SToken)
    (h : ∀ u ∈ l, parenDelta u = 0) : parenDepth l = 0 := by
  induction l with
  | nil => simp [parenDepth]
  | cons t ts ih =>
    rw [parenDepth_cons, h t (List.mem_cons_self t ts),
      ih (fun u hu => h u (List.mem_cons_of_mem _ hu))]
    ring

/-- C7: sanitize_clause raises the multiple-statements error whenever the
input parses into more than one statement; scanning left to right it raises
the unbalanced-close error at the first prefix whose parenthesis depth goes
negative, regardless of what follows; it raises the unbalanced-open error when
the depth is positive at the end; and a balanced single-statement clause whose
final token is not a newline-less comment is returned unchanged. -/
theorem c7_sanitize_clause :
    (∀ (clause : String) (stmts : List (List SToken)),
      stmts.length ≠ 1 → sanitizeClause clause stmts = .error .multipleStatements) ∧
    (∀ (clause : String) (pre : List SToken) (t : SToken) (suf : List SToken),
      (∀ u ∈ pre, cleanTok u = true) → cleanTok t = true →
      (∀ k, 0 ≤ parenDepth (List.take k pre)) →
      parenDepth (pre ++ [t]) < 0 →
      sanitizeClause clause [pre ++ t :: suf] = .error .closingUnclosedParen) ∧
    (∀ (clause : String) (ts : List SToken),
      (∀ u ∈ ts, cleanTok u = true) →
      (∀ k, 0 ≤ parenDepth (List.take k ts)) →
      0 < parenDepth ts →
      sanitizeClause clause [ts] = .error .unclosedParen) ∧
    (∀ (clause : String) (ts : List SToken),
      (∀ u ∈ ts, cleanTok u = true) →
      (∀ k, 0 ≤ parenDepth (List.take k ts)) →
      parenDepth ts = 0 →
      needsNewlineAfter (lastOr none ts) = false →
      sanitizeClause clause [ts] = .ok clause) := by
  refine ⟨?_, ?_, ?_, ?_⟩
  · intro clause stmts h
    match stmts with
    | [] => rfl
    | [st] => exact absurd rfl h
    | a :: b :: rest => rfl
  · intro clause pre t suf hclean hct hpre hneg
    have hs := sanitizeScan_negative pre t suf none 0 hclean hct
      (by intro k; simpa using hpre k) (by simpa using hneg)
    simp only [sanitizeClause, hs]
  · intro clause ts hclean hpre hpos
    have hs := sanitizeScan_ok ts none 0 hclean (by intro k; simpa using hpre k)
    simp only [sanitizeClause, hs]
    rw [if_pos (by simpa using hpos)]
  · intro clause ts hclean hpre hzero hlast
    have hs := sanitizeScan_ok ts none 0 hclean (by intro k; simpa using hpre k)
    simp only [sanitizeClause, hs]
    rw [if_neg (by simp [hzero]), hlast]
    simp

theorem c7_sanitize_clause_witness :
    sanitizeClause "a=1; DROP TABLE x" stmtsMultiCx = .error .multipleStatements ∧
    sanitizeClause "a = 1)" [[cmpA1, SToken.tok TType.Punctuation ")"]] =
      .error .closingUnclosedParen ∧
    sanitizeClause "a = 1 AND (b = 2)" [clauseBalanced] = .ok "a = 1 AND (b = 2)" := by
  refine ⟨c7_sanitize_clause.1 _ stmtsMultiCx (by decide), ?_, ?_⟩
  · refine c7_sanitize_clause.2.1 "a = 1)" [cmpA1] (SToken.tok TType.Punctuation ")")
      [] (by decide) (by decide) ?_ (by decide)
    intro k
    have hz : ∀ u ∈ [cmpA1], parenDelta u = 0 := by decide
    have := parenDepth_zero_of_all (List.take k [cmpA1])
      (fun u hu => hz u (List.mem_of_mem_take hu))
    omega
  · refine c7_sanitize_clause.2.2.2 "a = 1 AND (b = 2)" clauseBalanced
      (by decide) ?_ (by decide) (by decide)
    intro k
    have hz : ∀ u ∈ clauseBalanced, parenDelta u = 0 := by decide
    have := parenDepth_zero_of_all (List.take k clauseBalanced)
      (fun u hu => hz u (List.mem_of_mem_take hu))
    omega

/-- C2: the two FOUND_TABLE completions of insert_rls.  First, when the scan
meets a WHERE clause in state FOUND_TABLE carrying predicate r, the clause is
rewritten — unconditionally, with no test of whether the predicate already
occurs in it — into WHERE ( body ) AND r, and the state returns to SCANNING.
Second, when the whole pass ends still in FOUND_TABLE (no WHERE or ON was
consumed after the table), a synthetic WHERE clause containing the predicate
is appended to the statement. -/
theorem c2_insert_rls_found_table :
    (∀ (g : SToken → Option SToken) (fuel : Nat) (ts : List SToken) (i : Nat)
        (cs : List SToken) (r : SToken),
      ts[i]? = some (SToken.group GKind.Where cs) →
      insertRlsLoop g (fuel + 1) ts i RlsState.foundTable (some r) =
        insertRlsLoop g fuel (ts.set i (whereWithRls g fuel cs r)) (i + 1)
          RlsState.scanning (some r)) ∧
    (∀ (g : SToken → Option SToken) (fuel : Nat) (ts ts' : List SToken) (r : SToken),
      insertRlsLoop g fuel ts 0 RlsState.scanning none =
        (ts', RlsState.foundTable, some r) →
      insertRlsCall g (fuel + 1) ts = ts' ++ [wsTok, synthWhere (some r)]) := by
  constructor
  · intro g fuel ts i cs r hi
    have step : insertRlsLoop g (fuel + 1) ts i RlsState.foundTable (some r) =
        insertRlsLoop g fuel
          ((ts.set i (SToken.group GKind.Where (insertRlsCall g fuel cs))).set i
            (whereWithRls g fuel cs r)) (i + 1) RlsState.scanning (some r) := by
      simp only [insertRlsLoop, hi]
      rfl
    rw [step, List.set_set]
  · intro g fuel ts ts' r h
    simp only [insertRlsCall, h]
    simp

theorem c2_insert_rls_found_table_witness :
    (insertRlsLoop gOrders 6 [whereX1] 0 RlsState.foundTable (some rlsExample) =
      insertRlsLoop gOrders 5
        ([whereX1].set 0 (whereWithRls gOrders 5 whereBodyX1 rlsExample)) 1
        RlsState.scanning (some rlsExample)) ∧
    insertRlsCall gOrders 21 stmtFromOrders =
      stmtFromOrders ++ [wsTok, synthWhere (some rlsExample)] :=
  ⟨c2_insert_rls_found_table.1 gOrders 5 [whereX1] 0 whereBodyX1 rlsExample rfl,
   c2_insert_rls_found_table.2 gOrders 20 stmtFromOrders stmtFromOrders rlsExample rfl⟩

theorem findFirstIdx_append (p : SToken → Bool) (pre : List SToken) :
    ∀ (ts : List SToken) (i : Nat), (∀ t ∈ pre, p t = false) →
    findFirstIdx p (pre ++ ts) i = findFirstIdx p ts (i + pre.length) := by
  induction pre with
  | nil => intro ts i _; simp [findFirstIdx]
  | cons q pre' ih =>
    intro ts i h
    have hq : p q = false := h q (List.mem_cons_self q pre')
    rw [List.cons_append, findFirstIdx, if_neg (by simp [hq]),
      ih ts (i + 1) (fun t ht => h t (List.mem_cons_of_mem _ ht))]
    congr 1
    simp
    omega

theorem findNonWs_append (mid : List SToken) :
    ∀ (ts : List SToken) (i : Nat), (∀ t ∈ mid, t.isWs = true) →
    findNonWs (mid ++ ts) i = findNonWs ts (i + mid.length) := by
  induction mid with
  | nil => intro ts i _; simp [findNonWs]
  | cons q mid' ih =>
    intro ts i h
    have hq : q.isWs = true := h q (List.mem_cons_self q mid')
    rw [List.cons_append, findNonWs, if_pos (by simp [hq]),
      ih ts (i + 1) (fun t ht => h t (List.mem_cons_of_mem _ ht))]
    congr 1
    simp
    omega

theorem set_append_len {α : Type} (xs : List α) :
    ∀ (y : α) (zs : List α) (v : α), (xs ++ y :: zs).set xs.length v = xs ++ v :: zs := by
  induction xs with
  | nil => intro y zs v; simp
  | cons x xs ih => intro y zs v; simp [List.set, ih]

theorem drop_after_prefix (pre : List SToken) (x : SToken) (rest : List SToken) :
    (pre ++ x :: rest).drop (pre.length + 1) = rest := by
  have h1 : pre ++ x :: rest = (pre ++ [x]) ++ rest := by simp
  have h2 : pre.length + 1 = (pre ++ [x]).length := by simp
  rw [h1, h2, List.drop_left]

theorem extractLimit_structured (pre mid post : List SToken) (v : String)
    (hpre : ∀ t ∈ pre, t.matchKw TType.Keyword ["LIMIT"] = false)
    (hmid : ∀ t ∈ mid, t.isWs = true) :
    extractLimitFromQuery (pre ++ limitKwTok :: (mid ++ numTok v :: post)) =
      some (pyInt v) := by
  unfold extractLimitFromQuery
  rw [findFirstIdx_append _ pre _ 0 hpre]
  rw [findFirstIdx, if_pos (by decide)]
  simp only [zero_add, tokenNextFrom, drop_after_prefix, findNonWs_append mid _ _ hmid]
  simp only [findNonWs]
  rw [if_neg (by simp [numTok, SToken.isWs, TType.inWhitespaceT] :
    ¬(numTok v).isWs = true)]
  rfl

/-- C5 (amended): when the computed limit is None — or 0, which the falsy test
`if not self._limit` treats the same way — the stripped text is returned with
a newline and LIMIT appended; when the computed limit is a nonzero bare
integer literal in the first statement, the literal is replaced by newLimit
exactly when force is true or newLimit is strictly smaller than the current
value, and the statement text is otherwise returned unchanged. -/
theorem c5_set_or_update_query_limit :
    (∀ (s : String) (parsed : List (List SToken)) (n : Int) (f : Bool),
      pqLimit parsed = none ∨ pqLimit parsed = some 0 →
      setOrUpdateQueryLimit s parsed n f = some (s ++ "\nLIMIT " ++ toString n)) ∧
    (∀ (s : String) (pre mid post : List SToken) (v : String) (n : Int) (f : Bool),
      (∀ t ∈ pre, isLimitKwTok t = false) →
      (∀ t ∈ pre, t.matchKw TType.Keyword ["LIMIT"] = false) →
      (∀ t ∈ mid, t.isWs = true) →
      pyInt v ≠ 0 →
      setOrUpdateQueryLimit s [pre ++ limitKwTok :: (mid ++ numTok v :: post)] n f =
        some (SToken.valueList (pre ++ limitKwTok :: (mid ++
          SToken.tok TType.IntegerLit
            (if f || n < pyInt v then toString n else v) :: post)))) := by
  constructor
  · intro s parsed n f h
    rcases h with h | h <;> simp [setOrUpdateQueryLimit, h]
  · intro s pre mid post v n f hpre1 hpre2 hmid hv
    have hext := extractLimit_structured pre mid post v hpre2 hmid
    have hpq : pqLimit [pre ++ limitKwTok :: (mid ++ numTok v :: post)] =
        some (pyInt v) := by simpa [pqLimit] using hext
    unfold setOrUpdateQueryLimit
    simp only [hpq, if_neg hv]
    rw [findFirstIdx_append _ pre _ 0 hpre1]
    simp only [findFirstIdx]
    rw [if_pos (by decide : isLimitKwTok limitKwTok = true)]
    simp only [zero_add, tokenNextFrom, drop_after_prefix, findNonWs_append mid _ _ hmid]
    simp only [findNonWs]
    rw [if_neg (by simp [numTok, SToken.isWs, TType.inWhitespaceT] :
      ¬(numTok v).isWs = true)]
    simp only [numTok]
    have hj : pre.length + 1 + mid.length = (pre ++ limitKwTok :: mid).length := by
      simp
      omega
    have hsplit : pre ++ limitKwTok :: (mid ++ SToken.tok TType.IntegerLit v :: post) =
        (pre ++ limitKwTok :: mid) ++ SToken.tok TType.IntegerLit v :: post := by
      simp
    cases hc : (f || decide (n < pyInt v)) with
    | true =>
      simp only [hc, if_true]
      rw [hsplit, hj, set_append_len]
      simp
    | false =>
      simp only [hc, Bool.false_eq_true, if_false]

theorem c5_set_or_update_query_limit_witness :
    setOrUpdateQueryLimit "SELECT 1" [stmtSelect1] 100 false =
      some "SELECT 1\nLIMIT 100" ∧
    setOrUpdateQueryLimit "SELECT 1 LIMIT 500" [stmtLimit500] 1000 false =
      some "SELECT 1 LIMIT 500" ∧
    setOrUpdateQueryLimit "SELECT 1 LIMIT 500" [stmtLimit500] 1000 true =
      some "SELECT 1 LIMIT 1000" ∧
    setOrUpdateQueryLimit "SELECT 1 LIMIT 500" [stmtLimit500] 100 false =
      some "SELECT 1 LIMIT 100" ∧
    setOrUpdateQueryLimit "SELECT 1 LIMIT -500" [stmtLimitNeg500] 100 false =
      some "SELECT 1 LIMIT -500" := by
  refine ⟨?_, ?_, ?_, ?_, ?_⟩
  · exact (c5_set_or_update_query_limit.1 "SELECT 1" [stmtSelect1] 100 false
      (Or.inl rfl)).trans (by rfl)
  · exact (c5_set_or_update_query_limit.2 "SELECT 1 LIMIT 500"
      [SToken.tok TType.DML "SELECT", wsTok, SToken.tok TType.IntegerLit "1", wsTok]
      [wsTok] [] "500" 1000 false (by decide) (by decide) (by decide)
      (by decide)).trans (by rfl)
  · exact (c5_set_or_update_query_limit.2 "SELECT 1 LIMIT 500"
      [SToken.tok TType.DML "SELECT", wsTok, SToken.tok TType.IntegerLit "1", wsTok]
      [wsTok] [] "500" 1000 true (by decide) (by decide) (by decide)
      (by decide)).trans (by rfl)
  · exact (c5_set_or_update_query_limit.2 "SELECT 1 LIMIT 500"
      [SToken.tok TType.DML "SELECT", wsTok, SToken.tok TType.IntegerLit "1", wsTok]
      [wsTok] [] "500" 100 false (by decide) (by decide) (by decide)
      (by decide)).trans (by rfl)
  · exact (c5_set_or_update_query_limit.2 "SELECT 1 LIMIT -500"
      [SToken.tok TType.DML "SELECT", wsTok, SToken.tok TType.IntegerLit "1", wsTok]
      [wsTok] [] "-500" 100 false (by decide) (by decide) (by decide)
      (by decide)).trans (by rfl)

/-- C5 counterexample: "SELECT 1 LIMIT 0" has an existing bare-integer LIMIT
value 0, so by the claim newLimit 100 without force must not change the query;
but `if not self._limit` treats the 0 limit as absent and appends a second
LIMIT clause, so the result is not the unchanged statement text. -/
theorem c5_counterexample :
    extractLimitFromQuery stmtLimit0 = some 0 ∧
    setOrUpdateQueryLimit "SELECT 1 LIMIT 0" [stmtLimit0] 100 false =
      some "SELECT 1 LIMIT 0\nLIMIT 100" ∧
    SToken.valueList stmtLimit0 = "SELECT 1 LIMIT 0" ∧
    some "SELECT 1 LIMIT 0\nLIMIT 100" ≠ some (SToken.valueList stmtLimit0) := by
  refine ⟨rfl, rfl, rfl, by decide⟩

/-- C6 counterexample: the claim allows a declared-UNKNOWN statement to pass
only if it contains no DDL token anywhere in it, but is_select scans only the
statement's direct children: the modelled parse of
"foo UNION SELECT 1 FROM (CREATE TABLE x)" is declared UNKNOWN, contains a
DDL token (nested in the parenthesis group), and still passes. -/
theorem c6_counterexample :
    getType stmtNestedDdl = "UNKNOWN" ∧
    SToken.anyTokDeepList (fun tt => tt == TType.DDL) stmtNestedDdl = true ∧
    isSelectModel none [stmtNestedDdl] = true :=
  ⟨rfl, rfl, rfl⟩
